import Mathlib

/-!
Verification of the MultiLogger logging engine (src/lib/MultiLogger/Log.h,
src/lib/MultiLogger/Log.cpp) via a shallow embedding in Lean 4.

The embedding models:
  * `Priority` — the C++ `enum class Priority` (Log.h:42-50), including the
    `__Size` sentinel, with its underlying-integer order;
  * `priorityShow` — the streaming operator `operator<<(Ostream&, Priority)`
    (Log.h:52-63), with the thrown `runtime_error` modelled as `Except.error`;
  * `LogTarget` — the registry entry struct (Log.cpp:31-54); the owned
    `LogDest::ptr_t` is modelled as `Option Dest` since a `unique_ptr` may be
    null, and `write`/`flush` effects are recorded as events;
  * the ingestion gate, formatting, ordering buffer, drain loop and teardown
    of `Logger::Impl` (Log.cpp:81-295), as pure state-transition functions and
    a small-step trace relation for the concurrent parts.
-/

namespace MultiLogger

/-- The C++ `enum class Priority` of Log.h:42-50, including the `__Size`
sentinel enumerator. -/
inductive Priority where
  | Debug
  | Info
  | Warning
  | Error
  | Critical
  | __Size
deriving DecidableEq, Repr

/-- Underlying integer value of each enumerator (C++ default enum numbering:
Debug = 0, …, Critical = 4, __Size = 5). Comparisons on a C++ `enum class`
compare these underlying values. -/
def Priority.toNat : Priority → Nat
  | .Debug => 0
  | .Info => 1
  | .Warning => 2
  | .Error => 3
  | .Critical => 4
  | .__Size => 5

/-- The C++ `<` on `Priority` values (underlying-value comparison). -/
def priLt (a b : Priority) : Bool := a.toNat < b.toNat

/-- `operator<<(Ostream&, Priority)` of Log.h:52-63: the five named
enumerators stream their names; any other value falls through the `switch`
and throws `std::runtime_error("unknown priority!")`, modelled as
`Except.error`. -/
def priorityShow : Priority → Except String String
  | .Debug => .ok "Debug"
  | .Info => .ok "Info"
  | .Warning => .ok "Warning"
  | .Error => .ok "Error"
  | .Critical => .ok "Critical"
  | .__Size => .error "unknown priority!"

/-- A destination capability (`LogDest` subclasses, Log.h:81-116). The
engine core only distinguishes them by identity; `write` and `flush` effects
are recorded as events by the engine model. -/
inductive Dest where
  | file (fname : String)
  | stdOut
  | stdErr
deriving DecidableEq, Repr

/-- A registry entry: the `LogTarget` struct of Log.cpp:31-54. `_dest` is a
`LogDest::ptr_t` (a `unique_ptr`, possibly null), modelled as `Option Dest`. -/
structure LogTarget where
  _name : String
  _dest : Option Dest
  _threshold : Priority
  _enabled : Bool
deriving DecidableEq, Repr

/-- A buffered log record: one element of `Logger::Impl::priority_queue_t`
(Log.cpp:84-87), i.e. a `pair<time_point, pair<Priority, string>>`. The
timestamp is modelled as nanoseconds since epoch. -/
structure Rec where
  ts : Nat
  pri : Priority
  line : String
deriving DecidableEq, Repr

/-- The heap order of `priority_queue_t` (Log.cpp:85-87): `std::greater` over
`pair<time_point, pair<Priority, string>>`, so the queue pops elements in
ascending lexicographic `(timestamp, priority, line)` order. -/
def keyLE (a b : Rec) : Bool :=
  a.ts < b.ts ||
    (a.ts == b.ts &&
      (a.pri.toNat < b.pri.toNat ||
        (a.pri.toNat == b.pri.toNat && (a.line < b.line || a.line == b.line))))

/-- Insert a record into a list kept in ascending `keyLE` order. -/
def insertRec (r : Rec) : List Rec → List Rec
  | [] => [r]
  | x :: xs => if keyLE r x then r :: x :: xs else x :: insertRec r xs

/-- The order in which the drain worker pops a swapped-out batch
(Log.cpp:109-111): repeatedly taking the heap top yields the batch sorted in
ascending `keyLE` order. -/
def sortRecs (l : List Rec) : List Rec := l.foldr insertRec []

/-- The per-target dispatch condition of the drain worker's inner loop
(Log.cpp:113): `target._enabled && !(msg.second.first < target._threshold)
&& target._dest`. -/
def dispatchCond (t : LogTarget) (p : Priority) : Bool :=
  t._enabled && !(priLt p t._threshold) && t._dest.isSome

/-- One record dispatched across the registry (Log.cpp:112-116): the line is
written, in registry order, to every target satisfying `dispatchCond`.
Each write is recorded as a `(target name, line)` event. -/
def dispatchRecord (dests : List LogTarget) (r : Rec) : List (String × String) :=
  (dests.filter (fun t => dispatchCond t r.pri)).map (fun t => (t._name, r.line))

/-- One drain batch (Log.cpp:104-117): the whole buffer is swapped out and
popped in ascending key order, each record dispatched across the registry. -/
def drainBatch (dests : List LogTarget) (buffer : List Rec) : List (String × String) :=
  (sortRecs buffer).flatMap (dispatchRecord dests)

/-- The ingestion gate of `Logger::Impl::log` (Log.cpp:144-147): under the
write lock, a call with `pri_ < _globalThreshold` returns without spawning an
ingestion task, so its record never reaches the buffer. Otherwise the record
proceeds. -/
def gateRecord (globalThreshold : Priority) (r : Rec) : Option Rec :=
  if priLt r.pri globalThreshold then none else some r

/-- The lines a single registry entry receives from one `log` call, composing
the ingestion gate with the drain worker's per-target condition: nothing if
the gate rejected the call, otherwise the formatted line exactly when
`dispatchCond` holds at dispatch time. -/
def entryWrites (t : LogTarget) : Option Rec → List String
  | none => []
  | some r => if dispatchCond t r.pri then [r.line] else []

/-- The formatting chain of the ingestion task (Log.cpp:158-171):
`put_time(&tm,"%b %e %T") << '.' << nanos << ' ' << threadId_ << ' ' <<
_category << ' ' << function_ << ' ' << pri_ << ": " << message << " (" <<
file_ << ':' << line_ << ")\n"`. The rendered `put_time` seconds-resolution
timestamp and the thread id are taken as opaque strings; streaming the
priority goes through `priorityShow` (and can throw). -/
def formatLine (ts : String) (nanos : Nat) (tid category fn : String)
    (p : Priority) (msg file : String) (line : Int) : Except String String :=
  (priorityShow p).map (fun pn =>
    ts ++ "." ++ toString nanos ++ " " ++ tid ++ " " ++ category ++ " " ++
      fn ++ " " ++ pn ++ ": " ++ msg ++ " (" ++ file ++ ":" ++
      toString line ++ ")\n")

/-- From the spec's words only (§6, External Interfaces), for comparison with
`formatLine`: one newline-terminated line `<timestamp with sub-second
precision> <calling-thread identity> <category> <call-site function name>
<priority name>: <message> (<source file>:<line>)`. -/
def specFormattedLine (tsSubSec tid category fn pname msg file : String)
    (line : Int) : String :=
  tsSubSec ++ " " ++ tid ++ " " ++ category ++ " " ++ fn ++ " " ++ pname ++
    ": " ++ msg ++ " (" ++ file ++ ":" ++ toString line ++ ")" ++ "\n"

/-- The `Logger::Impl` state: member variables of Log.cpp:278-294, with the
member initializers `_log{true}`, `_errorThreshold{Priority::Error}`,
`_requestedErrors{0}`; `_verifCB` is a default-constructed (empty, falsy)
`std::function`, modelled as `Bool` (registered or not); `_dests` and
`_queue` start empty (default-constructed containers). -/
structure LoggerState where
  _category : String
  _globalThreshold : Priority
  _dests : List LogTarget
  _queue : List Rec
  _log : Bool
  _errorThreshold : Priority
  _requestedErrors : Nat
  _verifCB : Bool
deriving DecidableEq, Repr

/-- `Logger::Impl`'s constructor initializer list (Log.cpp:90-94):
`_globalThreshold{globalThreshold_}, _category{category_}`, every other
member at its declared default. -/
def mkLoggerImpl (globalThreshold : Priority) (category : String) : LoggerState :=
  { _category := category
    _globalThreshold := globalThreshold
    _dests := []
    _queue := []
    _log := true
    _errorThreshold := .Error
    _requestedErrors := 0
    _verifCB := false }

/-- `Logger::Logger` with its default arguments (Log.h:217-218):
`globalThreshold_ = Priority::Info`, `category_ = "global"`. -/
def defaultLoggerState : LoggerState := mkLoggerImpl .Info "global"

/-- Commands on the engine whose effects are serialized by `_writeMutex`:
the synchronous gate section of `Logger::Impl::log` (Log.cpp:143-152) and the
lock-guarded setters `verifyCB` (Log.cpp:235-238), `errorThreshold`
(Log.cpp:240-244) and `threshold(Priority)` (Log.cpp:211-222). -/
inductive Cmd where
  | logCall (p : Priority)
  | setVerifCB (registered : Bool)
  | setErrorThreshold (p : Priority)
  | setGlobalThreshold (p : Priority)
deriving DecidableEq, Repr

/-- One command, as the source executes it. For `logCall` this is exactly
Log.cpp:144-151: return early when `pri_ < _globalThreshold`; otherwise
increment `_requestedErrors` when `_verifCB && !(pri_ < _errorThreshold)`. -/
def execCmd (st : LoggerState) : Cmd → LoggerState
  | .logCall p =>
    if priLt p st._globalThreshold then st
    else if st._verifCB && !(priLt p st._errorThreshold) then
      { st with _requestedErrors := st._requestedErrors + 1 }
    else st
  | .setVerifCB b => { st with _verifCB := b }
  | .setErrorThreshold p => { st with _errorThreshold := p }
  | .setGlobalThreshold p => { st with _globalThreshold := p }

/-- A run of serialized commands. -/
def execCmds (st : LoggerState) (cmds : List Cmd) : LoggerState :=
  cmds.foldl execCmd st

/-- From the spec's words only (§8, Error counting), for comparison with the
`_requestedErrors` counter: a `log()` call qualifies when a verification
callback is registered and `priority >= errorThreshold` and
`priority >= globalThreshold`, judged against the state at ingestion-gate
time. -/
def qualifiesAsError (st : LoggerState) (p : Priority) : Bool :=
  st._verifCB && !(priLt p st._errorThreshold) && !(priLt p st._globalThreshold)

/-- Spec-side count of qualifying `log()` calls along a run, judging each
call against the engine state at its own ingestion-gate time. -/
def countRequestedErrors (st : LoggerState) : List Cmd → Nat
  | [] => 0
  | c :: cs =>
    (match c with
      | .logCall p => if qualifiesAsError st p then 1 else 0
      | _ => 0) + countRequestedErrors (execCmd st c) cs

/-- `Logger::Impl::logging(const std::string&)` (Log.cpp:264-271): a linear
`find_if` on the registry for the first entry with the given name; `false`
when none matches, otherwise that first entry's `_enabled` flag. -/
def logging (dests : List LogTarget) (destName : String) : Bool :=
  match dests.find? (fun t => destName == t._name) with
  | none => false
  | some t => t._enabled

/-- `FileDest::FileDest` (Log.cpp:302-308): opens the file and throws
`runtime_error("cannot open file " + fname_ + " for logging!")` when the
stream is not usable. Whether a name is openable is an environment
parameter. -/
def mkFileDest (openable : String → Bool) (fname : String) : Except String Dest :=
  if openable fname then .ok (.file fname)
  else .error ("cannot open file " ++ fname ++ " for logging!")

/-- `Logger::Impl::addDest(name, dest)` (Log.cpp:188-192): appends an entry
with the current global threshold, enabled. -/
def addDest (st : LoggerState) (name : String) (d : Option Dest) : LoggerState :=
  { st with _dests := st._dests ++ [⟨name, d, st._globalThreshold, true⟩] }

/-- Registering a File destination: the `FileDest` is constructed in the
caller's argument expression (e.g. `make_unique<FileDest>(fname)`), so an
open failure throws before `addDest` runs; only on success is the entry
appended. -/
def addFileDest (st : LoggerState) (name fname : String)
    (openable : String → Bool) : Except String LoggerState :=
  (mkFileDest openable fname).map (fun d => addDest st name (some d))

/-- C++ exception semantics at the registration call site: when the operation
throws, the caller's engine object is whatever it was before the call. -/
def stateAfter (st : LoggerState) : Except String LoggerState → LoggerState
  | .ok st2 => st2
  | .error _ => st

/-- Observable teardown effects: a `flush()` on a named destination, or the
invocation of the verification callback with a count. -/
inductive TeardownEvent where
  | flushDest (name : String)
  | invoke (count : Nat)
deriving DecidableEq, Repr

/-- The effects of `Logger::Impl::~Impl` after the drain worker has been
joined (Log.cpp:126-133): only when `_verifCB` is set, every registry entry
with a non-null `_dest` is flushed in registry order and then the callback is
invoked with `_requestedErrors.load()`; when no callback is set, nothing at
all happens after the join. -/
def teardownEvents (st : LoggerState) : List TeardownEvent :=
  if st._verifCB then
    (st._dests.filter (fun t => t._dest.isSome)).map (fun t => .flushDest t._name)
      ++ [.invoke st._requestedErrors]
  else []

/-- State of a run as seen by the drain worker loop (Log.cpp:95-119) and the
detached ingestion tasks (Log.cpp:157-179): the ordering buffer `_queue`, the
`_log` shutdown flag, whether the worker loop has exited, the registry, the
records dispatched so far (in dispatch order), and the individual
`(destination name, line)` write events issued so far. -/
structure WState where
  buffer : List Rec
  log : Bool
  exited : Bool
  dests : List LogTarget
  drained : List Rec
  writes : List (String × String)
deriving DecidableEq, Repr

/-- Small-step interleaving semantics of the concurrent engine:
  * `ingest`: a detached ingestion task pushes its record under `_writeMutex`
    (Log.cpp:173-176); tasks are unordered, so this can happen at any time —
    in particular a record with an earlier capture timestamp may be pushed
    after one with a later timestamp, and after batches have been drained;
  * `drain`: one iteration of the worker body (Log.cpp:103-117): swap out the
    entire buffer and dispatch it, in ascending key order, across the
    registry (a no-op when the buffer is empty, matching a timeout wake-up);
  * `shutdown`: `~Impl` sets `_log = false` (Log.cpp:123); nothing ever sets
    it back to `true`;
  * `exitLoop`: the worker's `break` (Log.cpp:99-101), taken exactly when,
    under the lock, the buffer is empty and `_log` is already `false`. -/
inductive WStep : WState → WState → Prop where
  | ingest (s : WState) (r : Rec) :
      WStep s { s with buffer := r :: s.buffer }
  | drain (s : WState) (h : s.exited = false) :
      WStep s { s with buffer := []
                       drained := s.drained ++ sortRecs s.buffer
                       writes := s.writes ++ drainBatch s.dests s.buffer }
  | shutdown (s : WState) :
      WStep s { s with log := false }
  | exitLoop (s : WState) (he : s.exited = false) (hb : s.buffer = [])
      (hl : s.log = false) :
      WStep s { s with exited := true }

/-- Reachability along interleaved steps. -/
def WReach : WState → WState → Prop := Relation.ReflTransGen WStep

/-- The sequence of lines a given destination name receives in a run. -/
def writesTo (s : WState) (name : String) : List String :=
  (s.writes.filter (fun w => w.1 == name)).map Prod.snd

/- Concrete runs and states used to evaluate the model on explicit inputs. -/

/-- A concrete record for evaluating dispatch. -/
def rC2 : Rec := ⟨0, .Warning, "w\n"⟩

/-- A concrete enabled registry entry with an Info threshold. -/
def tC2 : LogTarget := ⟨"d", some .stdOut, .Info, true⟩

/-- A registry with two entries sharing the name "a": the first disabled, a
later one enabled. -/
def destsC6 : List LogTarget :=
  [⟨"a", some .stdOut, .Info, false⟩, ⟨"a", some .stdOut, .Info, true⟩]

/-- An engine with one registered file destination and no verification
callback. -/
def stC3 : LoggerState :=
  { defaultLoggerState with _dests := [⟨"f", some (.file "o.txt"), .Info, true⟩] }

/-- The same engine with a verification callback registered. -/
def stC3v : LoggerState := { stC3 with _verifCB := true }

/-- A concrete buffered record for the shutdown-drain run. -/
def rC5 : Rec := ⟨5, .Info, "m\n"⟩

/-- Run for the shutdown-drain property: shutdown flag already set, worker
not yet exited, one record still buffered, one enabled destination. -/
def sC5a : WState := ⟨[rC5], false, false, [⟨"f", some (.file "out.txt"), .Debug, true⟩], [], []⟩

/-- After one drain iteration: the buffer swapped out and dispatched. -/
def sC5b : WState :=
  { sC5a with buffer := []
              drained := sC5a.drained ++ sortRecs sC5a.buffer
              writes := sC5a.writes ++ drainBatch sC5a.dests sC5a.buffer }

/-- After the worker takes the `break`. -/
def sC5c : WState := { sC5b with exited := true }

/-- Two enabled destinations with Debug thresholds. -/
def tD1 : LogTarget := ⟨"d1", some (.file "d1.txt"), .Debug, true⟩

/-- Second destination, identical configuration. -/
def tD2 : LogTarget := ⟨"d2", some (.file "d2.txt"), .Debug, true⟩

/-- Record of the `log()` call whose timestamp was captured first. -/
def recA : Rec := ⟨1, .Info, "A\n"⟩

/-- Record of the `log()` call whose timestamp was captured second. -/
def recB : Rec := ⟨2, .Info, "B\n"⟩

/-- Start of the interleaving run: empty buffer, engine running, registry
holding the two destinations. -/
def c1s0 : WState := ⟨[], true, false, [tD1, tD2], [], []⟩

/-- recB's ingestion task (the later capture) reaches the buffer first. -/
def c1s1 : WState := { c1s0 with buffer := recB :: c1s0.buffer }

/-- The worker drains the batch containing only recB. -/
def c1s2 : WState :=
  { c1s1 with buffer := []
              drained := c1s1.drained ++ sortRecs c1s1.buffer
              writes := c1s1.writes ++ drainBatch c1s1.dests c1s1.buffer }

/-- Only now does recA's slower ingestion task insert its record. -/
def c1s3 : WState := { c1s2 with buffer := recA :: c1s2.buffer }

/-- The worker drains the batch containing only recA. -/
def c1s4 : WState :=
  { c1s3 with buffer := []
              drained := c1s3.drained ++ sortRecs c1s3.buffer
              writes := c1s3.writes ++ drainBatch c1s3.dests c1s3.buffer }

end MultiLogger

namespace MultiLogger

/-- Claim C9: a Logger constructed with no arguments starts with global
threshold Info, category "global", error threshold Error, an empty
destination registry and a requested-error count of zero; a Logger
constructed with explicit arguments starts with exactly the given global
threshold and category. -/
theorem logger_initial_state :
    defaultLoggerState._globalThreshold = .Info ∧
    defaultLoggerState._category = "global" ∧
    defaultLoggerState._errorThreshold = .Error ∧
    defaultLoggerState._dests = [] ∧
    defaultLoggerState._requestedErrors = 0 ∧
    ∀ (gt : Priority) (cat : String),
      (mkLoggerImpl gt cat)._globalThreshold = gt ∧
      (mkLoggerImpl gt cat)._category = cat :=
  ⟨rfl, rfl, rfl, rfl, rfl, fun _ _ => ⟨rfl, rfl⟩⟩

/-- Claim C10: streaming a Priority yields exactly the five names "Debug",
"Info", "Warning", "Error", "Critical" for the five named enumerators, and
throws a runtime error ("unknown priority!") for any other value, i.e. for
`__Size`, the only remaining value of the enumeration. -/
theorem priorityShow_cases :
    priorityShow .Debug = .ok "Debug" ∧
    priorityShow .Info = .ok "Info" ∧
    priorityShow .Warning = .ok "Warning" ∧
    priorityShow .Error = .ok "Error" ∧
    priorityShow .Critical = .ok "Critical" ∧
    priorityShow .__Size = .error "unknown priority!" :=
  ⟨rfl, rfl, rfl, rfl, rfl, rfl⟩

/-- Claim C2: a record's line is written to a registry entry (that holds a
destination capability) exactly when the entry is enabled at dispatch time,
the record's priority reaches the entry's threshold at dispatch time, and the
record's priority reached the engine's global threshold at ingestion time. -/
theorem entry_write_iff (gt : Priority) (r : Rec) (t : LogTarget)
    (hd : t._dest.isSome = true) :
    entryWrites t (gateRecord gt r) = [r.line] ↔
      t._enabled = true ∧ t._threshold.toNat ≤ r.pri.toNat ∧
        gt.toNat ≤ r.pri.toNat := by
  unfold gateRecord entryWrites dispatchCond priLt
  by_cases hg : r.pri.toNat < gt.toNat
  · simp only [hg, decide_True, if_true]
    constructor
    · intro h; exact absurd h (by simp)
    · intro ⟨_, _, h⟩; omega
  · simp only [hg, decide_False, if_false, hd]
    by_cases he : t._enabled
    · by_cases ht : r.pri.toNat < t._threshold.toNat
      · simp [he, ht]
        try omega
      · simp [he, ht]
        try omega
    · simp [he]

/-- Concrete evaluation of `entry_write_iff`: a Warning record against an
Info-threshold enabled entry under an Info global threshold. -/
theorem entry_write_iff_witness :
    entryWrites tC2 (gateRecord .Info rC2) = [rC2.line] ↔
      tC2._enabled = true ∧ tC2._threshold.toNat ≤ rC2.pri.toNat ∧
        Priority.Info.toNat ≤ rC2.pri.toNat :=
  entry_write_iff .Info rC2 tC2 rfl

/-- Claim C7: when a File destination cannot be opened, registering it fails
with the propagated error and the engine state the caller holds afterwards is
exactly the state from before the call — the failed destination is not
registered. -/
theorem addFileDest_error_leaves_state (st : LoggerState) (name fname : String)
    (openable : String → Bool) (h : openable fname = false) :
    addFileDest st name fname openable =
        .error ("cannot open file " ++ fname ++ " for logging!") ∧
      stateAfter st (addFileDest st name fname openable) = st := by
  have hmk : mkFileDest openable fname =
      .error ("cannot open file " ++ fname ++ " for logging!") := by
    simp [mkFileDest, h]
  refine ⟨?_, ?_⟩ <;> simp [addFileDest, hmk, stateAfter, Except.map]

/-- Concrete evaluation of `addFileDest_error_leaves_state` on a default
logger and an environment in which no file opens. -/
theorem addFileDest_error_leaves_state_witness :
    addFileDest defaultLoggerState "d" "x.txt" (fun _ => false) =
        .error ("cannot open file " ++ "x.txt" ++ " for logging!") ∧
      stateAfter defaultLoggerState
          (addFileDest defaultLoggerState "d" "x.txt" (fun _ => false)) =
        defaultLoggerState :=
  addFileDest_error_leaves_state defaultLoggerState "d" "x.txt" (fun _ => false) rfl

/-- Claim C6, counterexample: with two entries named "a" — the first
disabled, a later one enabled — `logging "a"` returns false although an
enabled entry with that name exists, so "true iff some entry with that name
exists and is enabled" fails. -/
theorem logging_not_any_enabled_match :
    ¬ (logging destsC6 "a" = true ↔
        ∃ t ∈ destsC6, t._name = "a" ∧ t._enabled = true) := by
  decide

/-- Claim C6, amended: `isLogging(destinationName)` returns true iff an entry
with that name exists and the FIRST entry carrying that name is enabled
(duplicate names are resolved to the first match). -/
theorem logging_iff_first_match (dests : List LogTarget) (name : String) :
    logging dests name = true ↔
      ∃ pre t post, dests = pre ++ t :: post ∧ t._name = name ∧
        t._enabled = true ∧ ∀ u ∈ pre, u._name ≠ name := by
  constructor
  · intro h
    unfold logging at h
    cases hf : dests.find? (fun t => name == t._name) with
    | none => rw [hf] at h; exact absurd h (by simp)
    | some t =>
      rw [hf] at h
      obtain ⟨hp, pre, post, heq, hpre⟩ := List.find?_eq_some.mp hf
      refine ⟨pre, t, post, heq, ?_, h, ?_⟩
      · exact (eq_of_beq hp).symm
      · intro u hu
        have := hpre u hu
        simp only [Bool.not_eq_true', beq_eq_false_iff_ne] at this
        exact fun hne => this hne.symm
  · rintro ⟨pre, t, post, heq, hn, he, hpre⟩
    have hf : dests.find? (fun t => name == t._name) = some t := by
      apply List.find?_eq_some.mpr
      refine ⟨by simp [hn], pre, post, heq, ?_⟩
      intro a ha
      simp only [Bool.not_eq_true', beq_eq_false_iff_ne]
      exact fun hca => (hpre a ha) hca.symm
    unfold logging
    rw [hf]
    exact he

/-- Claim C3, counterexample: with a file destination registered but no
verification callback set, teardown performs no flush at all — refuting
"this flushing happens whether or not a verification callback is set". -/
theorem teardown_no_flush_without_callback :
    (⟨"f", some (.file "o.txt"), .Info, true⟩ : LogTarget) ∈ stC3._dests ∧
      TeardownEvent.flushDest "f" ∉ teardownEvents stC3 := by
  decide

/-- Claim C3, amended: teardown flushes the destinations only when a
verification callback is set; in that case every registered destination
(each holding a capability) is flushed in registry order and then the
callback is invoked exactly once, afterwards, with the final requested-error
count; with no callback set, nothing is flushed and nothing is invoked. -/
theorem teardown_flush_order (st : LoggerState)
    (hall : ∀ t ∈ st._dests, t._dest.isSome = true) :
    (st._verifCB = true →
      teardownEvents st =
        st._dests.map (fun t => TeardownEvent.flushDest t._name)
          ++ [TeardownEvent.invoke st._requestedErrors]) ∧
    (st._verifCB = false → teardownEvents st = []) := by
  constructor
  · intro hcb
    unfold teardownEvents
    rw [if_pos hcb, List.filter_eq_self.mpr hall]
  · intro hcb
    unfold teardownEvents
    rw [if_neg]
    simp [hcb]

/-- Concrete evaluation of `teardown_flush_order` on an engine with one file
destination and a registered callback. -/
theorem teardown_flush_order_witness :
    (stC3v._verifCB = true →
      teardownEvents stC3v =
        stC3v._dests.map (fun t => TeardownEvent.flushDest t._name)
          ++ [TeardownEvent.invoke stC3v._requestedErrors]) ∧
    (stC3v._verifCB = false → teardownEvents stC3v = []) :=
  teardown_flush_order stC3v (by decide)

/-- Claim C4: along any serialized run of log calls and setter calls, the
requested-error counter grows by exactly the number of `log()` calls that, at
their own ingestion-gate time, find a verification callback registered and
carry `priority >= errorThreshold` and `priority >= globalThreshold`. -/
theorem requested_errors_counts_qualifying_calls (st : LoggerState)
    (cmds : List Cmd) :
    (execCmds st cmds)._requestedErrors =
      st._requestedErrors + countRequestedErrors st cmds := by
  induction cmds generalizing st with
  | nil => simp [execCmds, countRequestedErrors]
  | cons c cs ih =>
    rw [show execCmds st (c :: cs) = execCmds (execCmd st c) cs from rfl,
      ih (execCmd st c)]
    cases c with
    | logCall p =>
      rw [show countRequestedErrors st (Cmd.logCall p :: cs) =
          (if qualifiesAsError st p then 1 else 0) +
            countRequestedErrors (execCmd st (Cmd.logCall p)) cs from rfl]
      by_cases hg : priLt p st._globalThreshold
      · simp [execCmd, qualifiesAsError, hg]
      · by_cases hv : st._verifCB
        · by_cases he : priLt p st._errorThreshold
          · simp [execCmd, qualifiesAsError, hg, hv, he]
          · simp [execCmd, qualifiesAsError, hg, hv, he]
            omega
        · simp [execCmd, qualifiesAsError, hg, hv]
    | setVerifCB b =>
      rw [show countRequestedErrors st (Cmd.setVerifCB b :: cs) =
          0 + countRequestedErrors (execCmd st (Cmd.setVerifCB b)) cs from rfl]
      simp [execCmd]
    | setErrorThreshold p =>
      rw [show countRequestedErrors st (Cmd.setErrorThreshold p :: cs) =
          0 + countRequestedErrors (execCmd st (Cmd.setErrorThreshold p)) cs from rfl]
      simp [execCmd]
    | setGlobalThreshold p =>
      rw [show countRequestedErrors st (Cmd.setGlobalThreshold p :: cs) =
          0 + countRequestedErrors (execCmd st (Cmd.setGlobalThreshold p)) cs from rfl]
      simp [execCmd]

/-- Claim C8: a formatted log line is, field for field, the spec's
`<timestamp with sub-second precision> <thread> <category> <function>
<priority name>: <message> (<file>:<line>)` — where the sub-second timestamp
is the seconds-resolution timestamp, a dot and the nanosecond remainder — and
the line is newline-terminated. -/
theorem formatLine_matches_spec (ts : String) (nanos : Nat)
    (tid category fn : String) (p : Priority) (msg file : String) (line : Int)
    (pname : String) (hp : priorityShow p = .ok pname) :
    formatLine ts nanos tid category fn p msg file line =
        .ok (specFormattedLine (ts ++ "." ++ toString nanos) tid category fn
          pname msg file line) ∧
      ∃ s, specFormattedLine (ts ++ "." ++ toString nanos) tid category fn
          pname msg file line = s ++ "\n" := by
  constructor
  · unfold formatLine specFormattedLine
    rw [hp]
    simp only [Except.map, String.append_assoc,
      show (")" : String) ++ "\n" = ")\n" from rfl]
  · exact ⟨_, rfl⟩

/-- Concrete evaluation of `formatLine_matches_spec` on an Info-priority
message. -/
theorem formatLine_matches_spec_witness :
    formatLine "Oct 11 12:00:00" 42 "140135" "global" "main" .Info "hello"
        "Tester.cpp" 30 =
        .ok (specFormattedLine ("Oct 11 12:00:00" ++ "." ++ toString 42)
          "140135" "global" "main" "Info" "hello" "Tester.cpp" 30) ∧
      ∃ s, specFormattedLine ("Oct 11 12:00:00" ++ "." ++ toString 42)
          "140135" "global" "main" "Info" "hello" "Tester.cpp" 30 = s ++ "\n" :=
  formatLine_matches_spec "Oct 11 12:00:00" 42 "140135" "global" "main" .Info
    "hello" "Tester.cpp" 30 "Info" rfl

/-- Helper: membership is preserved by ordered insertion. -/
theorem mem_insertRec (a r : Rec) (l : List Rec) :
    a ∈ insertRec r l ↔ a = r ∨ a ∈ l := by
  induction l with
  | nil => simp [insertRec]
  | cons x xs ih =>
    unfold insertRec
    split
    · simp
    · simp [ih]
      tauto

/-- Helper: sorting a batch does not change its members. -/
theorem mem_sortRecs (a : Rec) (l : List Rec) :
    a ∈ sortRecs l ↔ a ∈ l := by
  induction l with
  | nil => simp [sortRecs]
  | cons x xs ih =>
    rw [show sortRecs (x :: xs) = insertRec x (sortRecs xs) from rfl,
      mem_insertRec]
    simp [ih]

/-- Helper: a single interleaving step keeps every record either already
drained or still buffered while the worker runs. -/
theorem wstep_preserves_record (r : Rec) (s s2 : WState) (h : WStep s s2) :
    r ∈ s.drained ∨ (s.exited = false ∧ r ∈ s.buffer) →
    r ∈ s2.drained ∨ (s2.exited = false ∧ r ∈ s2.buffer) := by
  cases h with
  | ingest r2 =>
    intro hinv
    rcases hinv with hl | ⟨hex, hb⟩
    · exact Or.inl hl
    · exact Or.inr ⟨hex, List.mem_cons_of_mem r2 hb⟩
  | drain hx =>
    intro hinv
    rcases hinv with hl | ⟨hex, hb⟩
    · exact Or.inl (List.mem_append_left _ hl)
    · exact Or.inl (List.mem_append_right _ ((mem_sortRecs r s.buffer).mpr hb))
  | shutdown =>
    intro hinv
    exact hinv
  | exitLoop he hb hl =>
    intro hinv
    rcases hinv with hd | ⟨hex, hmem⟩
    · exact Or.inl hd
    · rw [hb] at hmem
      exact absurd hmem (List.not_mem_nil r)

/-- Helper: the step invariant extended along any reachable run. -/
theorem wreach_preserves_record (r : Rec) (s s2 : WState) (h : WReach s s2) :
    r ∈ s.drained ∨ (s.exited = false ∧ r ∈ s.buffer) →
    r ∈ s2.drained ∨ (s2.exited = false ∧ r ∈ s2.buffer) := by
  induction h with
  | refl => exact id
  | tail _ hstep ih =>
    intro hinv
    exact wstep_preserves_record r _ _ hstep (ih hinv)

/-- Claim C5: the drain worker's loop exits only when the shutdown flag is
set and the ordering buffer is empty; consequently, in any interleaved run,
every record buffered at a moment when the shutdown flag is already set has
been dispatched by the time the worker exits. -/
theorem worker_exit_conditions :
    (∀ s s2 : WState, WStep s s2 → s.exited = false → s2.exited = true →
      s.log = false ∧ s.buffer = []) ∧
    (∀ (s s2 : WState) (r : Rec), WReach s s2 → s.log = false →
      s.exited = false → r ∈ s.buffer → s2.exited = true →
      r ∈ s2.drained) := by
  constructor
  · intro s s2 hstep h1 h2
    cases hstep with
    | ingest r2 => rw [h1] at h2; exact absurd h2 (by simp)
    | drain hx => rw [h1] at h2; exact absurd h2 (by simp)
    | shutdown => rw [h1] at h2; exact absurd h2 (by simp)
    | exitLoop he hb hl => exact ⟨hl, hb⟩
  · intro s s2 r hreach _ hex hmem hex2
    have hinv := wreach_preserves_record r s s2 hreach (Or.inr ⟨hex, hmem⟩)
    rcases hinv with hd | ⟨hex3, _⟩
    · exact hd
    · rw [hex2] at hex3; exact absurd hex3 (by simp)

/-- Concrete evaluation of `worker_exit_conditions`: with the shutdown flag
already set and one record still buffered, a drain followed by the loop's
`break` leaves the record dispatched. -/
theorem worker_exit_conditions_witness : rC5 ∈ sC5c.drained :=
  worker_exit_conditions.2 sC5a sC5c rC5
    (Relation.ReflTransGen.head (WStep.drain sC5a rfl)
      (Relation.ReflTransGen.single (WStep.exitLoop sC5b rfl rfl rfl)))
    rfl rfl (by decide) rfl

/-- Claim C1 evidence: a concrete interleaving in which the `log()` call
whose timestamp was captured second (`recB`, ts = 2) has its detached
ingestion task reach the buffer and get drained before the first call's
record (`recA`, ts = 1) is inserted. Both enabled destinations then receive
the identical sequence [recB.line, recA.line], which is in descending — not
ascending — capture-timestamp order. -/
theorem drain_interleaving_breaks_timestamp_order :
    WReach c1s0 c1s4 ∧
    writesTo c1s4 "d1" = [recB.line, recA.line] ∧
    writesTo c1s4 "d2" = [recB.line, recA.line] ∧
    c1s4.drained.map Rec.ts = [recB.ts, recA.ts] ∧
    recA.ts < recB.ts := by
  refine ⟨?_, by decide, by decide, by decide, by decide⟩
  exact Relation.ReflTransGen.head (WStep.ingest c1s0 recB)
    (Relation.ReflTransGen.head (WStep.drain c1s1 rfl)
      (Relation.ReflTransGen.head (WStep.ingest c1s2 recA)
        (Relation.ReflTransGen.single (WStep.drain c1s3 rfl))))

end MultiLogger
